import Mathlib

/-!
Verification development for the BotTrapper discord-bot repository.

This file gives a shallow embedding of the Access Control and Feature-Gating
Resolution Engine: the feature-flag resolver with its expiring cache
(`src/features/featureManager.ts`, class `FeatureManager`), the admin registry
and role-rule store (`src/database/database.ts`, class `DatabaseManager`), the
command permission resolver (`PermissionManager.checkCommandPermission` and
`PermissionManager.hasPermission`), the catalog synchronizer
(`registerGuildCommands` in `src/index.ts`) and the dashboard feature-write
route (`PUT /api/settings/:guildId/features` in `src/api/server.ts`).

Modelling conventions:
- JavaScript `Map` objects become association lists keyed by `String`;
  `Map.get` is `alookup`, `Map.set` is `aset`, `Map.delete` is `aerase`.
- Every asynchronous function that can reject is modelled as a function
  returning `World × Except Unit α`: the returned `World` is the state at the
  moment the function returned or threw (JavaScript mutations performed before
  a throw persist).
- `Date.now()` is an explicit `now : Nat` parameter; within a single
  invocation all reads of the clock are taken at the same instant.
- Every store round-trip that performs a query increments the `dbReads`
  counter, so "no store read happened" is visible as an unchanged counter.
- A store outage is modelled by per-operation failure flags in `Faults`; a
  flagged operation throws before touching the store, exactly where
  `pool.connect()` would reject.
-/

namespace BotTrapper

/-- Lookup in an association list, mirroring JavaScript `Map.get`. -/
def alookup {α : Type} : List (String × α) → String → Option α
  | [], _ => none
  | (k, v) :: rest, key => if k = key then some v else alookup rest key

/-- Remove a key from an association list, mirroring `Map.delete`. -/
def aerase {α : Type} (m : List (String × α)) (k : String) : List (String × α) :=
  m.filter (fun p => p.1 != k)

/-- Insert or replace a key, mirroring `Map.set`. -/
def aset {α : Type} (m : List (String × α)) (k : String) (v : α) : List (String × α) :=
  (k, v) :: aerase m k

/-- Row of the `guild_settings` table as returned by
`DatabaseManager.getGuildSettings`: the parsed `enabled_features` array and the
raw `settings` JSON text (treated as an uninterpreted string here). -/
structure GuildRow where
  enabledFeatures : List String
  settings : String
deriving DecidableEq, Repr

/-- Row of the `command_permissions` table: per-guild, per-role allow/deny
lists (`DatabaseManager.updateCommandPermissions` schema). -/
structure CommandPermRow where
  guildId : String
  roleId : String
  allowed : List String
  denied : List String
deriving DecidableEq, Repr

/-- Row of the `global_admins` table. -/
structure AdminRecord where
  userId : String
  level : Nat
  isActive : Bool
deriving DecidableEq, Repr

/-- Entry of `DatabaseManager.adminCache`. -/
structure AdminCacheEntry where
  isAdmin : Bool
  level : Nat
  timestamp : Nat
deriving DecidableEq, Repr

/-- The legacy capability set of `permissionManager`
(interface `UserPermissions` in `src/features/featureManager.ts`, second
document: the revision used by `index.ts`). -/
structure UserPermissions where
  canManageTickets : Bool
  canManageAutoResponses : Bool
  canViewStats : Bool
  canUseEmbedBuilder : Bool
  canManagePermissions : Bool
  canManageAutoRoles : Bool
deriving DecidableEq, Repr

/-- Key into `UserPermissions`, mirroring `keyof UserPermissions`. -/
inductive PermKey where
  | canManageTickets
  | canManageAutoResponses
  | canViewStats
  | canUseEmbedBuilder
  | canManagePermissions
  | canManageAutoRoles
deriving DecidableEq, Repr

/-- Projection `permissions[requiredPermission]`. -/
def permGet (p : UserPermissions) : PermKey → Bool
  | PermKey.canManageTickets => p.canManageTickets
  | PermKey.canManageAutoResponses => p.canManageAutoResponses
  | PermKey.canViewStats => p.canViewStats
  | PermKey.canUseEmbedBuilder => p.canUseEmbedBuilder
  | PermKey.canManagePermissions => p.canManagePermissions
  | PermKey.canManageAutoRoles => p.canManageAutoRoles

/-- Row of the `user_permissions` table (legacy per-user permission JSON),
already parsed. -/
structure UserPermRow where
  userId : String
  guildId : String
  perms : UserPermissions
deriving DecidableEq, Repr

/-- Contents of the persistent store (the Postgres tables the engine reads). -/
structure Store where
  guildSettings : List (String × GuildRow)
  commandPermissions : List CommandPermRow
  globalAdmins : List AdminRecord
  userPermissions : List UserPermRow
deriving DecidableEq, Repr

/-- Per-operation store-outage flags: a set flag makes the corresponding
database method throw (connection failure) before reaching the store. -/
structure Faults where
  guildSettingsRead : Bool
  guildSettingsWrite : Bool
  adminRead : Bool
  adminWrite : Bool
  rolePermsRead : Bool
  userPermsRead : Bool
deriving DecidableEq, Repr

/-- Whole-process state: store plus the two in-memory caches
(`FeatureManager.featureCache`/`cacheExpiry` and `DatabaseManager.adminCache`)
plus a counter of store read round-trips. -/
structure World where
  store : Store
  faults : Faults
  featureCache : List (String × List String)
  featureExpiry : List (String × Nat)
  adminCache : List (String × AdminCacheEntry)
  dbReads : Nat
deriving DecidableEq, Repr

/-- Cache TTL: `5 * 60 * 1000` milliseconds in both caches. -/
def CACHE_DURATION : Nat := 300000

/-- Fail-open feature list returned by `FeatureManager.getEnabledFeatures`
when the store read throws. -/
def failOpenFeatures : List String :=
  ["tickets", "autoresponses", "statistics", "webhooks"]

/-- Default feature list lazily inserted by
`DatabaseManager.getGuildSettings` when a guild has no row yet. -/
def defaultLazyFeatures : List String :=
  ["tickets", "autoresponses", "statistics"]

/-- FeatureManager.getCachedFeatures: a missing, zero or past expiry entry is
deleted and treated as absent (`!expiry || Date.now() > expiry`); otherwise the
cached list is returned unchanged. -/
def getCachedFeatures (w : World) (now : Nat) (g : String) :
    World × Option (List String) :=
  match alookup w.featureExpiry g with
  | none =>
    ({ w with featureCache := aerase w.featureCache g,
              featureExpiry := aerase w.featureExpiry g }, none)
  | some e =>
    if e = 0 ∨ now > e then
      ({ w with featureCache := aerase w.featureCache g,
                featureExpiry := aerase w.featureExpiry g }, none)
    else
      (w, alookup w.featureCache g)

/-- FeatureManager.setCachedFeatures: write-through cache population with a
fresh TTL. -/
def setCachedFeatures (w : World) (now : Nat) (g : String)
    (fs : List String) : World :=
  { w with featureCache := aset w.featureCache g fs,
           featureExpiry := aset w.featureExpiry g (now + CACHE_DURATION) }

/-- Default guild row lazily inserted by `DatabaseManager.getGuildSettings`
when a guild has no row yet. -/
def lazyDefaultRow : GuildRow :=
  { enabledFeatures := defaultLazyFeatures, settings := ("\x7b\x7d") }

/-- DatabaseManager.getGuildSettings: reads the guild row; when absent,
lazily inserts the default row and returns it. Throws on a store outage. -/
def dbGetGuildSettings (w : World) (g : String) :
    World × Except Unit GuildRow :=
  if w.faults.guildSettingsRead then (w, Except.error ())
  else
    match alookup w.store.guildSettings g with
    | some row => ({ w with dbReads := w.dbReads + 1 }, Except.ok row)
    | none =>
      ({ w with
          dbReads := w.dbReads + 1,
          store := { w.store with guildSettings :=
            (aset w.store.guildSettings g lazyDefaultRow) } },
       Except.ok lazyDefaultRow)

/-- DatabaseManager.updateGuildSettings: upserts the guild row. Throws on a
store outage. -/
def dbUpdateGuildSettings (w : World) (g : String) (fs : List String)
    (s : String) : World × Except Unit Unit :=
  if w.faults.guildSettingsWrite then (w, Except.error ())
  else
    ({ w with store :=
        { w.store with guildSettings :=
            (aset w.store.guildSettings g
              ({ enabledFeatures := fs, settings := s } : GuildRow)) } },
     Except.ok ())

/-- FeatureManager.isFeatureEnabled: cache first, then store; any thrown error
is caught and the call defaults to `true` (fail open). -/
def isFeatureEnabled (w : World) (now : Nat) (g f : String) : World × Bool :=
  match getCachedFeatures w now g with
  | (w1, some cached) => (w1, cached.contains f)
  | (w1, none) =>
    match dbGetGuildSettings w1 g with
    | (w2, Except.error _) => (w2, true)
    | (w2, Except.ok row) =>
      (setCachedFeatures w2 now g row.enabledFeatures,
       row.enabledFeatures.contains f)

/-- FeatureManager.getEnabledFeatures: cache first, then store; any thrown
error is caught and the full feature list is returned (fail open). -/
def getEnabledFeatures (w : World) (now : Nat) (g : String) :
    World × List String :=
  match getCachedFeatures w now g with
  | (w1, some cached) => (w1, cached)
  | (w1, none) =>
    match dbGetGuildSettings w1 g with
    | (w2, Except.error _) => (w2, failOpenFeatures)
    | (w2, Except.ok row) =>
      (setCachedFeatures w2 now g row.enabledFeatures, row.enabledFeatures)

/-- One iteration of the `for (const [feature, enabled] of Object.entries)`
loop in `FeatureManager.updateFeatures`. -/
def patchStep (cur : List String) (p : String × Bool) : List String :=
  if p.2 then (if cur.contains p.1 then cur else cur ++ [p.1])
  else (if cur.contains p.1 then cur.filter (fun f => f != p.1) else cur)

/-- The whole patch loop of `FeatureManager.updateFeatures`. -/
def applyPatch (cur : List String) (patch : List (String × Bool)) :
    List String :=
  patch.foldl patchStep cur

/-- FeatureManager.updateFeatures: read the current set (fail-open read),
apply the patch, persist via `getGuildSettings` + `updateGuildSettings`, then
write the new set directly into the cache. Errors of the two store operations
are rethrown. -/
def updateFeatures (w : World) (now : Nat) (g : String)
    (patch : List (String × Bool)) : World × Except Unit Unit :=
  match getEnabledFeatures w now g with
  | (w1, current) =>
    let nf := applyPatch current patch
    match dbGetGuildSettings w1 g with
    | (w2, Except.error e) => (w2, Except.error e)
    | (w2, Except.ok row) =>
      match dbUpdateGuildSettings w2 g nf row.settings with
      | (w3, Except.error e) => (w3, Except.error e)
      | (w3, Except.ok _) => (setCachedFeatures w3 now g nf, Except.ok ())

/-- Store query part of `DatabaseManager.isGlobalAdmin` (the code after the
cache check): select an active record, cache the result (positive or
negative) with the current timestamp. -/
def dbIsGlobalAdminQuery (w : World) (now : Nat) (u : String) :
    World × Except Unit (Bool × Nat) :=
  if w.faults.adminRead then (w, Except.error ())
  else
    match w.store.globalAdmins.find? (fun a => u == a.userId && a.isActive) with
    | some a =>
      ({ w with
          dbReads := w.dbReads + 1,
          adminCache := (aset w.adminCache u
            ({ isAdmin := true, level := a.level, timestamp := now } : AdminCacheEntry)) },
       Except.ok (true, a.level))
    | none =>
      ({ w with
          dbReads := w.dbReads + 1,
          adminCache := (aset w.adminCache u
            ({ isAdmin := false, level := 0, timestamp := now } : AdminCacheEntry)) },
       Except.ok (false, 0))

/-- DatabaseManager.isGlobalAdmin: serve an unexpired cache entry without a
store access, otherwise query the store and repopulate the cache. -/
def dbIsGlobalAdmin (w : World) (now : Nat) (u : String) :
    World × Except Unit (Bool × Nat) :=
  match alookup w.adminCache u with
  | some c =>
    if now - c.timestamp < CACHE_DURATION then (w, Except.ok (c.isAdmin, c.level))
    else dbIsGlobalAdminQuery w now u
  | none => dbIsGlobalAdminQuery w now u

/-- DatabaseManager.removeGlobalAdmin: soft-delete (`is_active = false`) every
record of the user and clear that user's cache entry. Throws on a store
outage. -/
def dbRemoveGlobalAdmin (w : World) (u : String) : World × Except Unit Unit :=
  if w.faults.adminWrite then (w, Except.error ())
  else
    ({ w with
        store := { w.store with globalAdmins :=
          (w.store.globalAdmins.map
            (fun a => if a.userId = u then { a with isActive := false } else a)) },
        adminCache := aerase w.adminCache u },
     Except.ok ())

/-- PermissionManager.isGlobalAdmin: wraps `dbManager.isGlobalAdmin` in a
try/catch that turns any error into a negative answer. -/
def pmIsGlobalAdmin (w : World) (now : Nat) (u : String) : World × Bool × Nat :=
  match dbIsGlobalAdmin w now u with
  | (w1, Except.ok (b, l)) => (w1, b, l)
  | (w1, Except.error _) => (w1, false, 0)

/-- The guild object carried by an interaction (`interaction.guild`). -/
structure Guild where
  id : String
  ownerId : String
deriving DecidableEq, Repr

/-- The member object carried by an interaction: `member.id`,
`member.user?.id` (either may be absent), the Discord permission-bit names
held (`member.permissions.has`), and the role ids of `member.roles.cache`. -/
structure Member where
  memberId : Option String
  userFieldId : Option String
  flags : List String
  roleIds : List String
deriving DecidableEq, Repr

/-- The slice of a chat-input interaction that the permission resolver
reads: `interaction.guild`, `interaction.user.id`, `interaction.member`,
`interaction.client.application.owner?.id` and
`interaction.options.getSubcommand()`. -/
structure Interaction where
  guild : Option Guild
  userId : String
  member : Option Member
  botOwnerId : Option String
  subcommand : Option String
deriving DecidableEq, Repr

/-- JavaScript `a || b` on possibly-absent strings (an empty string is
falsy), used for `member.id || member.user?.id`. -/
def jsOr (a b : Option String) : Option String :=
  match a with
  | some s => if s == "" then b else some s
  | none => b

/-- Legacy capability sets of `PermissionManager`. -/
def defaultPermissions : UserPermissions :=
  { canManageTickets := false, canManageAutoResponses := false,
    canViewStats := false, canUseEmbedBuilder := true,
    canManagePermissions := false, canManageAutoRoles := false }

/-- Moderator capability set (`getModeratorPermissions`). -/
def moderatorPermissions : UserPermissions :=
  { canManageTickets := true, canManageAutoResponses := false,
    canViewStats := true, canUseEmbedBuilder := true,
    canManagePermissions := false, canManageAutoRoles := false }

/-- Admin capability set (`getAdminPermissions`). -/
def adminPermissions : UserPermissions :=
  { canManageTickets := true, canManageAutoResponses := true,
    canViewStats := true, canUseEmbedBuilder := true,
    canManagePermissions := true, canManageAutoRoles := true }

/-- The Discord-bit part of `PermissionManager.getUserPermissions`:
Administrator, then ManageMessages/ManageChannels, then default. -/
def permsFromFlags (m : Member) : UserPermissions :=
  if m.flags.contains ("Administrator") then adminPermissions
  else if m.flags.contains ("ManageMessages") || m.flags.contains ("ManageChannels") then
    moderatorPermissions
  else defaultPermissions

/-- DatabaseManager.getUserPermissions: look up the legacy per-user
permission row. Throws on a store outage; an absent user id matches no row. -/
def dbGetUserPermissions (w : World) (u : Option String) (g : String) :
    World × Except Unit (Option UserPermissions) :=
  if w.faults.userPermsRead then (w, Except.error ())
  else
    match u with
    | none => ({ w with dbReads := w.dbReads + 1 }, Except.ok none)
    | some uid =>
      ({ w with dbReads := w.dbReads + 1 },
       Except.ok ((w.store.userPermissions.find?
        (fun r => r.userId == uid && r.guildId == g)).map UserPermRow.perms))

/-- PermissionManager.getUserPermissionsFromDB: wraps the store lookup in a
try/catch that turns any error into `null`. -/
def getUserPermissionsFromDB (w : World) (u : Option String) (g : String) :
    World × Option UserPermissions :=
  match dbGetUserPermissions w u g with
  | (w1, Except.ok r) => (w1, r)
  | (w1, Except.error _) => (w1, none)

/-- PermissionManager.getUserPermissions: global admin (an unprotected
`dbManager.isGlobalAdmin` call whose error propagates), then Discord bits. -/
def getUserPermissionsM (w : World) (now : Nat) (m : Member) :
    World × Except Unit UserPermissions :=
  match jsOr m.memberId m.userFieldId with
  | some u =>
    match dbIsGlobalAdmin w now u with
    | (w1, Except.error e) => (w1, Except.error e)
    | (w1, Except.ok (isAdmin, _)) =>
      if isAdmin then (w1, Except.ok adminPermissions)
      else (w1, Except.ok (permsFromFlags m))
  | none => (w, Except.ok (permsFromFlags m))

/-- Steps of `PermissionManager.hasPermission` after the global-admin check:
bot owner, guild owner, Administrator bit, stored per-user permissions, then
role-derived permissions. Reading `interaction.guild.id` with no guild would
throw, hence the error in that branch. -/
def hasPermissionRest (w : World) (now : Nat) (i : Interaction) (m : Member)
    (k : PermKey) (uid : Option String) : World × Except Unit Bool :=
  if uid == i.botOwnerId then (w, Except.ok true)
  else if (i.guild.map Guild.ownerId) == uid then (w, Except.ok true)
  else if m.flags.contains ("Administrator") then (w, Except.ok true)
  else
    match i.guild with
    | none => (w, Except.error ())
    | some g =>
      match getUserPermissionsFromDB w uid g.id with
      | (w1, some dbPerms) => (w1, Except.ok (permGet dbPerms k))
      | (w1, none) =>
        match getUserPermissionsM w1 now m with
        | (w2, Except.error e) => (w2, Except.error e)
        | (w2, Except.ok perms) => (w2, Except.ok (permGet perms k))

/-- PermissionManager.hasPermission: the first step is an unprotected
`dbManager.isGlobalAdmin` call (only made when a user id is present) whose
error propagates to the caller; the remaining steps are `hasPermissionRest`. -/
def hasPermission (w : World) (now : Nat) (i : Interaction) (m : Member)
    (k : PermKey) : World × Except Unit Bool :=
  match jsOr m.memberId m.userFieldId with
  | some u =>
    match dbIsGlobalAdmin w now u with
    | (w1, Except.error e) => (w1, Except.error e)
    | (w1, Except.ok (isAdmin, _)) =>
      if isAdmin then (w1, Except.ok true)
      else hasPermissionRest w1 now i m k (some u)
  | none => hasPermissionRest w now i m k none

/-- Aggregate denied commands over the rows matching the user's roles in
`DatabaseManager.getUserAllowedCommands` (set union realised as list
concatenation; membership coincides with the JavaScript `Set`). -/
def aggDenied (s : Store) (g : String) (roles : List String) : List String :=
  ((s.commandPermissions.filter
    (fun r => r.guildId == g && roles.contains r.roleId)).foldl
    (fun acc r => acc ++ r.denied) [])

/-- Aggregate allowed commands before deny-filtering, same rows as
`aggDenied`. -/
def aggAllowedRaw (s : Store) (g : String) (roles : List String) : List String :=
  ((s.commandPermissions.filter
    (fun r => r.guildId == g && roles.contains r.roleId)).foldl
    (fun acc r => acc ++ r.allowed) [])

/-- DatabaseManager.getUserAllowedCommands: union the rows of the user's
roles; denied commands are removed from the returned allowed list. Throws on
a store outage. The `userId` argument is unused by the query, as in the
source. -/
def dbGetUserAllowedCommands (w : World) (g : String) (_userId : String)
    (roles : List String) : World × Except Unit (List String × List String) :=
  if w.faults.rolePermsRead then (w, Except.error ())
  else
    ({ w with dbReads := w.dbReads + 1 },
     Except.ok ((aggAllowedRaw w.store g roles).filter
        (fun c => !((aggDenied w.store g roles).contains c)),
      aggDenied w.store g roles))

/-- Legacy fallback switch of `PermissionManager.checkCommandPermission`:
ticket-create is open to everyone, the four known commands map to a required
capability, any other command defaults to allowed. -/
def legacyCheck (w : World) (now : Nat) (i : Interaction) (m : Member)
    (c : String) : World × Except Unit Bool :=
  if c == "ticket" then
    (if i.subcommand == some ("create") then (w, Except.ok true)
     else hasPermission w now i m PermKey.canManageTickets)
  else if c == "autoresponse" then
    hasPermission w now i m PermKey.canManageAutoResponses
  else if c == "stats" then hasPermission w now i m PermKey.canViewStats
  else if c == "embed" then hasPermission w now i m PermKey.canUseEmbedBuilder
  else (w, Except.ok true)

/-- PermissionManager.checkCommandPermission (the revision in
`src/features/featureManager.ts` used by `index.ts`): deny without a guild id
or member; then guild owner, global admin (error-protected), explicit role
rules (deny before allow, errors fall through), then the legacy fallback. -/
def checkCommandPermission (w : World) (now : Nat) (i : Interaction)
    (c : String) : World × Except Unit Bool :=
  match i.guild, i.member with
  | some g, some m =>
    if g.id == "" then (w, Except.ok false)
    else if g.ownerId == i.userId then (w, Except.ok true)
    else
      match pmIsGlobalAdmin w now i.userId with
      | (w1, isAdmin, _) =>
        if isAdmin then (w1, Except.ok true)
        else
          match dbGetUserAllowedCommands w1 g.id i.userId m.roleIds with
          | (w2, Except.ok (allowed, denied)) =>
            if denied.contains c then (w2, Except.ok false)
            else if allowed.contains c then (w2, Except.ok true)
            else legacyCheck w2 now i m c
          | (w2, Except.error _) => legacyCheck w2 now i m c
  | _, _ => (w, Except.ok false)

/-- The static command catalog registered by `index.ts` (`commandsData`),
identified by command name. -/
def commandsData : List String :=
  ["ticket", "embed", "autoresponse", "stats", "changelog", "autorole", "bottrapper"]

/-- The static `COMMAND_FEATURE_MAP` of `index.ts`: commands mapped 0-or-1
to a feature name. -/
def commandFeatureMap : String → Option String
  | "ticket" => some ("tickets")
  | "autoresponse" => some ("autoresponses")
  | "stats" => some ("statistics")
  | "autorole" => some ("autoroles")
  | _ => none

/-- Gate used by the catalog filter: a command with no mapping is always
included, otherwise its feature must be in the enabled set. -/
def commandGateOpen (enabled : List String) (c : String) : Bool :=
  match commandFeatureMap c with
  | none => true
  | some f => enabled.contains f

/-- registerGuildCommands in `index.ts`: read the guild's enabled features
(fail-open read) and publish the filtered static catalog. The returned list
is the full replacement command set sent to the registration API. -/
def registerGuildCommands (w : World) (now : Nat) (g : String) :
    World × List String :=
  match getEnabledFeatures w now g with
  | (w1, enabled) => (w1, commandsData.filter (fun c => commandGateOpen enabled c))

/-- Outcome of the `PUT /api/settings/:guildId/features` route. -/
inductive ApiResp where
  | badRequest
  | serverError
  | success (commandsUpdated : Bool)
deriving DecidableEq, Repr

/-- State seen by the API server: the engine world, whether
`registerGuildCommandsFunction` has been registered (it is `null` until the
Discord client's ready handler calls `setRegisterGuildCommandsFunction`), and
a counter of catalog-resync notifications issued. -/
structure ApiState where
  world : World
  hookSet : Bool
  resyncCount : Nat
deriving DecidableEq, Repr

/-- Valid feature names accepted by the route (`validFeatures`). -/
def validFeatures : List String :=
  ["tickets", "autoresponses", "statistics", "webhooks"]

/-- The `PUT /api/settings/:guildId/features` handler of `src/api/server.ts`:
validate, run `updateFeatures` (errors become a 500 response), then — only if
`registerGuildCommandsFunction` is set — notify the catalog synchronizer once
(its own errors are swallowed), and answer with the fresh enabled set and a
`commandsUpdated` flag equal to whether the hook was set. -/
def putGuildFeatures (s : ApiState) (now : Nat) (g : String)
    (patch : List (String × Bool)) : ApiState × ApiResp :=
  if g == "" then (s, ApiResp.badRequest)
  else if !(patch.all (fun p => validFeatures.contains p.1)) then
    (s, ApiResp.badRequest)
  else
    match updateFeatures s.world now g patch with
    | (w1, Except.error _) => ({ s with world := w1 }, ApiResp.serverError)
    | (w1, Except.ok _) =>
      if s.hookSet then
        match registerGuildCommands w1 now g with
        | (w2, _) =>
          match getEnabledFeatures w2 now g with
          | (w3, _) =>
            ({ s with world := w3, resyncCount := s.resyncCount + 1 },
             ApiResp.success true)
      else
        match getEnabledFeatures w1 now g with
        | (w3, _) =>
          ({ s with world := w3 }, ApiResp.success false)

/-- Boolean test that an `Except` result is a success. -/
def isOkB : Except Unit Bool → Bool
  | Except.ok _ => true
  | Except.error _ => false

/-- A fault configuration with every store operation healthy. -/
def noFaults : Faults :=
  { guildSettingsRead := false, guildSettingsWrite := false, adminRead := false,
    adminWrite := false, rolePermsRead := false, userPermsRead := false }

/-- Sample role rule: role `mod` of guild `g1` has `stats` in both its
allowed and its denied list. -/
def sampleRule : CommandPermRow :=
  { guildId := "g1", roleId := "mod", allowed := ["stats"], denied := ["stats"] }

/-- Sample store: guild `g1` has the tickets feature disabled
(only `autoresponses` and `statistics` enabled), one role rule, and one
active global admin `u9`. -/
def sampleStore : Store :=
  { guildSettings :=
      [("g1", { enabledFeatures := ["autoresponses", "statistics"], settings := ("\x7b\x7d") })],
    commandPermissions := [sampleRule],
    globalAdmins := [{ userId := "u9", level := 3, isActive := true }],
    userPermissions := [] }

/-- Sample world: healthy store, empty feature cache, and a positive admin
cache entry for `u9`. -/
def sampleWorld : World :=
  { store := sampleStore, faults := noFaults, featureCache := [],
    featureExpiry := [],
    adminCache := [("u9", { isAdmin := true, level := 3, timestamp := 0 })],
    dbReads := 0 }

/-- Sample member `u1` holding only the role `mod` and no Discord
permission bits. -/
def sampleMember : Member :=
  { memberId := some ("u1"), userFieldId := some ("u1"), flags := [],
    roleIds := ["mod"] }

/-- Interaction by `u1`, the owner of guild `g1`. -/
def ownerInteraction : Interaction :=
  { guild := some { id := "g1", ownerId := "u1" }, userId := "u1",
    member := some sampleMember, botOwnerId := none,
    subcommand := some ("create") }

/-- Interaction by `u1` in guild `g1`, whose owner is someone else. -/
def plainInteraction : Interaction :=
  { guild := some { id := "g1", ownerId := "owner" }, userId := "u1",
    member := some sampleMember, botOwnerId := none,
    subcommand := some ("create") }

/-- Interaction outside a guild: no guild and no member object. -/
def dmInteraction : Interaction :=
  { guild := none, userId := "u1", member := none, botOwnerId := none,
    subcommand := none }

/-- Sample world whose global-admin store reads fail. -/
def adminFaultWorld : World :=
  { sampleWorld with faults := { noFaults with adminRead := true } }

/-- Sample world whose guild-settings store reads fail. -/
def readFaultWorld : World :=
  { sampleWorld with faults := { noFaults with guildSettingsRead := true } }

/-- API state before the Discord ready handler has registered the
guild-command function: the hook is still null. -/
def apiStateNoHook : ApiState :=
  { world := sampleWorld, hookSet := false, resyncCount := 0 }

/-- API state after the hook has been registered. -/
def apiStateHook : ApiState :=
  { world := sampleWorld, hookSet := true, resyncCount := 5 }

/-- World reached by revoking `u9` in `sampleWorld`. -/
def revokedWorld : World := (dbRemoveGlobalAdmin sampleWorld "u9").1

/-- World reached by disabling tickets for `g1` in `sampleWorld` at time 5. -/
def c6World : World :=
  (updateFeatures sampleWorld 5 "g1" [("tickets", false)]).1

theorem contains_filter (l : List String) (p : String → Bool) (c : String) :
    (l.filter p).contains c = (l.contains c && p c) := by
  rw [Bool.eq_iff_iff]
  simp [List.mem_filter, and_comm]

theorem contains_filter_bne_self (l : List String) (f : String) :
    (l.filter (fun x => x != f)).contains f = false := by
  rw [contains_filter]
  simp

theorem applyPatch_single_false (cur : List String) (f : String) :
    (applyPatch cur [(f, false)]).contains f = false := by
  simp only [applyPatch, List.foldl, patchStep]
  by_cases h : f ∈ cur
  · simp [h, List.mem_filter]
  · simp [h]

theorem alookup_aset_self {α : Type} (m : List (String × α)) (k : String)
    (v : α) : alookup (aset m k v) k = some v := by
  simp [aset, alookup]

theorem alookup_aerase_self {α : Type} (m : List (String × α)) (k : String) :
    alookup (aerase m k) k = none := by
  induction m with
  | nil => rfl
  | cons p rest ih =>
    rcases p with ⟨a, b⟩
    by_cases h : a = k
    · simpa [aerase, List.filter_cons, h] using ih
    · simpa [aerase, List.filter_cons, h, alookup] using ih

theorem getCachedFeatures_faults (w : World) (now : Nat) (g : String) :
    ((getCachedFeatures w now g).1).faults = w.faults := by
  unfold getCachedFeatures
  split
  · rfl
  · split
    · rfl
    · rfl

theorem dbIsGlobalAdminQuery_pres (w : World) (now : Nat) (u : String) :
    ((dbIsGlobalAdminQuery w now u).1).faults = w.faults ∧
    ((dbIsGlobalAdminQuery w now u).1).store = w.store := by
  unfold dbIsGlobalAdminQuery
  split
  · exact ⟨rfl, rfl⟩
  · split
    · exact ⟨rfl, rfl⟩
    · exact ⟨rfl, rfl⟩

theorem dbIsGlobalAdminQuery_ok (w : World) (now : Nat) (u : String)
    (h : w.faults.adminRead = false) :
    ∃ w1 r, dbIsGlobalAdminQuery w now u = (w1, Except.ok r) := by
  unfold dbIsGlobalAdminQuery
  rw [h]
  simp only [Bool.false_eq_true, if_false]
  split
  · exact ⟨_, _, rfl⟩
  · exact ⟨_, _, rfl⟩

theorem dbIsGlobalAdmin_pres (w : World) (now : Nat) (u : String) :
    ((dbIsGlobalAdmin w now u).1).faults = w.faults ∧
    ((dbIsGlobalAdmin w now u).1).store = w.store := by
  unfold dbIsGlobalAdmin
  split
  · split
    · exact ⟨rfl, rfl⟩
    · exact dbIsGlobalAdminQuery_pres w now u
  · exact dbIsGlobalAdminQuery_pres w now u

theorem dbIsGlobalAdmin_ok (w : World) (now : Nat) (u : String)
    (h : w.faults.adminRead = false) :
    ∃ w1 r, dbIsGlobalAdmin w now u = (w1, Except.ok r) := by
  unfold dbIsGlobalAdmin
  split
  · split
    · exact ⟨_, _, rfl⟩
    · exact dbIsGlobalAdminQuery_ok w now u h
  · exact dbIsGlobalAdminQuery_ok w now u h

theorem pmIsGlobalAdmin_pres (w : World) (now : Nat) (u : String) :
    ((pmIsGlobalAdmin w now u).1).faults = w.faults ∧
    ((pmIsGlobalAdmin w now u).1).store = w.store := by
  unfold pmIsGlobalAdmin
  have hp := dbIsGlobalAdmin_pres w now u
  split
  case _ b l heq => rw [heq] at hp; exact hp
  case _ e heq => rw [heq] at hp; exact hp

theorem dbGetUserAllowedCommands_eq (w : World) (g u : String)
    (roles : List String) (h : w.faults.rolePermsRead = false) :
    dbGetUserAllowedCommands w g u roles =
      ({ w with dbReads := w.dbReads + 1 },
       Except.ok ((aggAllowedRaw w.store g roles).filter
          (fun c => !((aggDenied w.store g roles).contains c)),
        aggDenied w.store g roles)) := by
  unfold dbGetUserAllowedCommands
  rw [h]
  simp only [Bool.false_eq_true, if_false]

theorem dbGetUserPermissions_faults (w : World) (u : Option String)
    (g : String) : ((dbGetUserPermissions w u g).1).faults = w.faults := by
  unfold dbGetUserPermissions
  split
  · rfl
  · split
    · rfl
    · rfl

theorem getUserPermissionsFromDB_faults (w : World) (u : Option String)
    (g : String) : ((getUserPermissionsFromDB w u g).1).faults = w.faults := by
  have hx := dbGetUserPermissions_faults w u g
  unfold getUserPermissionsFromDB
  rcases hdb : dbGetUserPermissions w u g with ⟨w1, r⟩
  rw [hdb] at hx
  rcases r with e | opt
  · exact hx
  · exact hx

theorem getUserPermissionsM_ok (w : World) (now : Nat) (m : Member)
    (h : w.faults.adminRead = false) :
    ∃ w1 p, getUserPermissionsM w now m = (w1, Except.ok p) := by
  unfold getUserPermissionsM
  split
  case _ u heq =>
    obtain ⟨w1, r, hr⟩ := dbIsGlobalAdmin_ok w now u h
    rw [hr]
    rcases r with ⟨b, l⟩
    cases b
    · exact ⟨_, _, rfl⟩
    · exact ⟨_, _, rfl⟩
  case _ heq => exact ⟨_, _, rfl⟩

theorem hasPermissionRest_ok (w : World) (now : Nat) (i : Interaction)
    (m : Member) (k : PermKey) (uid : Option String) (g : Guild)
    (h : w.faults.adminRead = false) (hg : i.guild = some g) :
    ∃ w1 b, hasPermissionRest w now i m k uid = (w1, Except.ok b) := by
  unfold hasPermissionRest
  split
  · exact ⟨_, _, rfl⟩
  · split
    · exact ⟨_, _, rfl⟩
    · split
      · exact ⟨_, _, rfl⟩
      · rw [hg]
        dsimp only
        rcases hdb : getUserPermissionsFromDB w uid g.id with ⟨w1, opt⟩
        have hf1 : w1.faults = w.faults := by
          have hx := getUserPermissionsFromDB_faults w uid g.id
          rw [hdb] at hx
          exact hx
        rcases opt with _ | perms
        · dsimp only
          obtain ⟨w2, p, hp⟩ :=
            getUserPermissionsM_ok w1 now m (by rw [hf1]; exact h)
          rw [hp]
          exact ⟨_, _, rfl⟩
        · exact ⟨_, _, rfl⟩

theorem hasPermission_ok (w : World) (now : Nat) (i : Interaction)
    (m : Member) (k : PermKey) (g : Guild)
    (h : w.faults.adminRead = false) (hg : i.guild = some g) :
    ∃ w1 b, hasPermission w now i m k = (w1, Except.ok b) := by
  unfold hasPermission
  split
  case _ u heq =>
    obtain ⟨w1, r, hr⟩ := dbIsGlobalAdmin_ok w now u h
    have hf1 : w1.faults = w.faults := by
      have hx := dbIsGlobalAdmin_pres w now u
      rw [hr] at hx
      exact hx.1
    rw [hr]
    rcases r with ⟨b, l⟩
    cases b
    · dsimp only [Bool.false_eq_true, if_false]
      exact hasPermissionRest_ok w1 now i m k (some u) g
        (by rw [hf1]; exact h) hg
    · exact ⟨_, _, rfl⟩
  case _ heq => exact hasPermissionRest_ok w now i m k none g h hg

theorem legacyCheck_ok (w : World) (now : Nat) (i : Interaction)
    (m : Member) (c : String) (g : Guild)
    (h : w.faults.adminRead = false) (hg : i.guild = some g) :
    ∃ w1 b, legacyCheck w now i m c = (w1, Except.ok b) := by
  unfold legacyCheck
  split
  · split
    · exact ⟨_, _, rfl⟩
    · exact hasPermission_ok w now i m PermKey.canManageTickets g h hg
  · split
    · exact hasPermission_ok w now i m PermKey.canManageAutoResponses g h hg
    · split
      · exact hasPermission_ok w now i m PermKey.canViewStats g h hg
      · split
        · exact hasPermission_ok w now i m PermKey.canUseEmbedBuilder g h hg
        · exact ⟨_, _, rfl⟩

/-- C1, counterexample. The claim says `checkCommandPermission` denies every
command mapped to a disabled feature, including for the guild owner. In the
code there is no feature gate in `checkCommandPermission` at all: with the
`tickets` feature disabled for guild `g1`, the guild owner running `ticket`
is allowed. -/
theorem c1_counterexample :
    commandFeatureMap ("ticket") = some ("tickets")
    ∧ ((getEnabledFeatures sampleWorld 0 ("g1")).2).contains ("tickets") = false
    ∧ (checkCommandPermission sampleWorld 0 ownerInteraction ("ticket")).2
        = Except.ok true := by
  refine ⟨rfl, ?_, ?_⟩
  · rfl
  · rfl

/-- C1, amended. Feature gating of commands is not performed inside
`checkCommandPermission`; it is enforced by the catalog synchronizer: a
command whose mapped feature is not in the guild's current enabled set is
excluded from the list `registerGuildCommands` publishes. -/
theorem c1_amended_catalog_gate (w : World) (now : Nat) (g c f : String)
    (hmap : commandFeatureMap c = some f)
    (hdis : ((getEnabledFeatures w now g).2).contains f = false) :
    ((registerGuildCommands w now g).2).contains c = false := by
  rcases hge : getEnabledFeatures w now g with ⟨w1, enabled⟩
  rw [hge] at hdis
  dsimp only at hdis
  unfold registerGuildCommands
  rw [hge]
  dsimp only
  rw [contains_filter]
  unfold commandGateOpen
  rw [hmap]
  dsimp only
  rw [hdis]
  simp

/-- C1, witness for the amended theorem: with tickets disabled for `g1`, the
`ticket` command is not in the published list. -/
theorem c1_witness :
    ((registerGuildCommands sampleWorld 0 ("g1")).2).contains ("ticket") = false :=
  c1_amended_catalog_gate sampleWorld 0 ("g1") ("ticket") ("tickets") rfl rfl

/-- C8. A guild owner passes `checkCommandPermission` for every command and
every store content (in particular regardless of role allow/deny rules),
whenever the interaction carries the guild and member objects; the
feature-gate hypothesis of the claim is stated but not even needed, because
the owner check is the first identity test in the code. The state is returned
unchanged. -/
theorem c8_owner_allowed (w : World) (now : Nat) (i : Interaction) (g : Guild)
    (m : Member) (c : String)
    (hg : i.guild = some g) (hm : i.member = some m)
    (hid : (g.id == "") = false)
    (hown : g.ownerId = i.userId)
    (_hgate : ∀ f, commandFeatureMap c = some f →
      ((getEnabledFeatures w now g.id).2).contains f = true) :
    checkCommandPermission w now i c = (w, Except.ok true) := by
  unfold checkCommandPermission
  rw [hg, hm]
  dsimp only
  rw [hid, hown]
  simp

/-- C8, witness: the owner `u1` of `g1` may run `stats` (feature
`statistics` is enabled, and the `mod` role that `u1` holds even has `stats`
in its denied list). -/
theorem c8_witness :
    checkCommandPermission sampleWorld 0 ownerInteraction ("stats")
      = (sampleWorld, Except.ok true) :=
  c8_owner_allowed sampleWorld 0 ownerInteraction
    { id := "g1", ownerId := "u1" } sampleMember ("stats") rfl rfl rfl rfl
    (fun f hf => by
      rw [show commandFeatureMap ("stats") = some ("statistics") from rfl] at hf
      cases hf
      rfl)

/-- C9. The catalog synchronizer publishes exactly the members of the static
catalog whose mapped feature (if any) is in the guild's current enabled set,
and the unmapped commands `embed` and `changelog` are always published. -/
theorem c9_catalog_filter (w : World) (now : Nat) (g c : String) :
    ((registerGuildCommands w now g).2).contains c
        = (commandsData.contains c
            && commandGateOpen ((getEnabledFeatures w now g).2) c)
      ∧ ((registerGuildCommands w now g).2).contains ("embed") = true
      ∧ ((registerGuildCommands w now g).2).contains ("changelog") = true := by
  rcases hge : getEnabledFeatures w now g with ⟨w1, enabled⟩
  unfold registerGuildCommands
  rw [hge]
  dsimp only
  refine ⟨contains_filter _ _ _, ?_, ?_⟩
  · rw [contains_filter]
    rfl
  · rw [contains_filter]
    rfl

/-- C10. Without a (non-empty) guild id or without a member object the
resolver denies immediately, returning the world unchanged: no admin-registry
read, no role-rule read and no legacy fallback happens. -/
theorem c10_guard (w : World) (now : Nat) (i : Interaction) (c : String)
    (h : i.guild = none ∨ (∃ g, i.guild = some g ∧ g.id = "")
        ∨ i.member = none) :
    checkCommandPermission w now i c = (w, Except.ok false) := by
  unfold checkCommandPermission
  rcases h with h | ⟨g, hg, hid⟩ | h
  · cases hm : i.member <;> rw [h]
  · rcases hm : i.member with _ | m
    · rw [hg]
    · rw [hg]
      dsimp only
      rw [hid]
      simp
  · cases hgu : i.guild <;> rw [h]

/-- C10, witness: a command used outside a guild (no guild, no member) is
denied with the world untouched. -/
theorem c10_witness :
    checkCommandPermission sampleWorld 0 dmInteraction ("ticket")
      = (sampleWorld, Except.ok false) :=
  c10_guard sampleWorld 0 dmInteraction ("ticket") (Or.inl rfl)

theorem dbGetUserAllowedCommands_faults (w : World) (g u : String)
    (roles : List String) :
    ((dbGetUserAllowedCommands w g u roles).1).faults = w.faults := by
  unfold dbGetUserAllowedCommands
  split
  · rfl
  · rfl

/-- C2, counterexample. The claim quantifies over every user, but the owner
and global-admin short-circuits run before the role rules: the owner of `g1`
runs `stats` although `stats` is in the aggregate denied set of the owner's
roles. -/
theorem c2_counterexample :
    (aggDenied sampleWorld.store ("g1") sampleMember.roleIds).contains ("stats")
        = true
    ∧ (checkCommandPermission sampleWorld 0 ownerInteraction ("stats")).2
        = Except.ok true := by
  exact ⟨rfl, rfl⟩

/-- C2, amended. For a caller who is neither the guild owner nor reported as
an active global admin, and whose role-rule read succeeds, a command in the
aggregate denied set is denied — even when it is also in the aggregate allow
set, and regardless of which role contributed which list. -/
theorem c2_amended_deny_precedence (w : World) (now : Nat) (i : Interaction)
    (g : Guild) (m : Member) (c : String)
    (hg : i.guild = some g) (hm : i.member = some m)
    (hid : (g.id == "") = false)
    (hown : (g.ownerId == i.userId) = false)
    (hadm : (pmIsGlobalAdmin w now i.userId).2.1 = false)
    (hfault : w.faults.rolePermsRead = false)
    (hden : (aggDenied w.store g.id m.roleIds).contains c = true) :
    ∃ w2, checkCommandPermission w now i c = (w2, Except.ok false) := by
  unfold checkCommandPermission
  rw [hg, hm]
  dsimp only
  rw [hid, hown]
  simp only [Bool.false_eq_true, if_false]
  have hpres := pmIsGlobalAdmin_pres w now i.userId
  rcases hpm : pmIsGlobalAdmin w now i.userId with ⟨w1, bAdm, lvl⟩
  rw [hpm] at hadm hpres
  dsimp only at hadm hpres ⊢
  rw [hadm]
  simp only [Bool.false_eq_true, if_false]
  rw [dbGetUserAllowedCommands_eq w1 g.id i.userId m.roleIds
    (by rw [hpres.1]; exact hfault)]
  dsimp only
  rw [hpres.2, hden]
  exact ⟨_, if_pos rfl⟩

/-- C2, witness for the amended theorem: non-owner `u1` holds only role
`mod`, which has `stats` in both its allowed and its denied list; the
resolver denies `stats`. -/
theorem c2_witness :
    (aggAllowedRaw sampleWorld.store ("g1") sampleMember.roleIds).contains ("stats")
        = true
    ∧ ∃ w2, checkCommandPermission sampleWorld 0 plainInteraction ("stats")
        = (w2, Except.ok false) :=
  ⟨rfl, c2_amended_deny_precedence sampleWorld 0 plainInteraction
    { id := "g1", ownerId := "owner" } sampleMember ("stats")
    rfl rfl rfl rfl rfl rfl rfl⟩

/-- C4. When the guild-settings read throws on a cache miss, the resolver
fails open: `getEnabledFeatures` returns the non-empty all-features list and
`isFeatureEnabled` returns true for every feature. -/
theorem c4_fail_open (w : World) (now : Nat) (g f : String)
    (hfault : w.faults.guildSettingsRead = true)
    (hmiss : (getCachedFeatures w now g).2 = none) :
    (getEnabledFeatures w now g).2 = failOpenFeatures
    ∧ failOpenFeatures ≠ []
    ∧ (isFeatureEnabled w now g f).2 = true := by
  rcases hc : getCachedFeatures w now g with ⟨w1, cached⟩
  rw [hc] at hmiss
  dsimp only at hmiss
  subst hmiss
  have hf1 : w1.faults = w.faults := by
    have hx := getCachedFeatures_faults w now g
    rw [hc] at hx
    exact hx
  have hdb : dbGetGuildSettings w1 g = (w1, Except.error ()) := by
    unfold dbGetGuildSettings
    rw [hf1, hfault]
    simp
  refine ⟨?_, by simp [failOpenFeatures], ?_⟩
  · unfold getEnabledFeatures
    rw [hc]
    dsimp only
    rw [hdb]
  · unfold isFeatureEnabled
    rw [hc]
    dsimp only
    rw [hdb]

/-- C4, witness: with the guild-settings read failing and an empty cache,
`g1` gets the full feature list and `tickets` reads as enabled. -/
theorem c4_witness :
    (getEnabledFeatures readFaultWorld 0 ("g1")).2 = failOpenFeatures
    ∧ failOpenFeatures ≠ []
    ∧ (isFeatureEnabled readFaultWorld 0 ("g1") ("tickets")).2 = true :=
  c4_fail_open readFaultWorld 0 ("g1") ("tickets") rfl rfl

/-- C5, counterexample. The claim says `checkCommandPermission` never
propagates a store failure. But the legacy fallback calls
`PermissionManager.hasPermission`, whose `dbManager.isGlobalAdmin` call is
not wrapped in a try/catch: with the admin read failing, `embed` (which
reaches the legacy fallback) makes the whole call reject instead of
returning a boolean. -/
theorem c5_counterexample :
    isOkB ((checkCommandPermission adminFaultWorld 0 plainInteraction
      ("embed")).2) = false := by
  rfl

/-- C5, amended. As long as the global-admin store read does not fail, every
`checkCommandPermission` call returns a boolean: failures of the role-rule
read and of the legacy per-user permission read are swallowed (the former
falls through to the legacy fallback, the latter returns null), and the
top-level admin check is wrapped in its own try/catch. Only an admin-read
failure reached through the legacy fallback can propagate. -/
theorem c5_amended_no_error (w : World) (now : Nat) (i : Interaction)
    (c : String) (h : w.faults.adminRead = false) :
    isOkB ((checkCommandPermission w now i c).2) = true := by
  unfold checkCommandPermission
  rcases hgu : i.guild with _ | g
  · cases hm : i.member <;> rfl
  · rcases hm : i.member with _ | m
    · rfl
    · dsimp only
      split
      · rfl
      · split
        · rfl
        · split
          · rfl
          · have hfp := (pmIsGlobalAdmin_pres w now i.userId).1
            rcases hra : dbGetUserAllowedCommands
                (pmIsGlobalAdmin w now i.userId).1 g.id i.userId m.roleIds
              with ⟨w2, r⟩
            have hf2 : w2.faults = w.faults := by
              have hx := dbGetUserAllowedCommands_faults
                (pmIsGlobalAdmin w now i.userId).1 g.id i.userId m.roleIds
              rw [hra] at hx
              dsimp only at hx
              rw [hx, hfp]
            rcases r with e | ⟨alw, den⟩
            · dsimp only
              obtain ⟨w3, b, hb⟩ := legacyCheck_ok w2 now i m c g
                (by rw [hf2]; exact h) hgu
              rw [hb]
              rfl
            · dsimp only
              split
              · rfl
              · split
                · rfl
                · obtain ⟨w3, b, hb⟩ := legacyCheck_ok w2 now i m c g
                    (by rw [hf2]; exact h) hgu
                  rw [hb]
                  rfl

/-- C5, witness: with a healthy admin store, the same `embed` call by a
plain user completes with a boolean. -/
theorem c5_witness :
    isOkB ((checkCommandPermission sampleWorld 0 plainInteraction
      ("embed")).2) = true :=
  c5_amended_no_error sampleWorld 0 plainInteraction ("embed") rfl

theorem isFeatureEnabled_after_set (w : World) (now : Nat) (g f : String)
    (fs : List String) :
    isFeatureEnabled (setCachedFeatures w now g fs) now g f
      = (setCachedFeatures w now g fs, fs.contains f) := by
  have hcond : ¬(now + CACHE_DURATION = 0 ∨ now > now + CACHE_DURATION) := by
    unfold CACHE_DURATION
    omega
  unfold isFeatureEnabled getCachedFeatures setCachedFeatures
  dsimp only
  rw [alookup_aset_self]
  dsimp only
  rw [if_neg hcond, alookup_aset_self]

/-- C6. After a successful `updateFeatures(G, [tickets := false])` the very
next `isFeatureEnabled(G, tickets)` at the same instant returns false with
the world unchanged (in particular, the store-read counter does not move):
the new set was written directly into the cache. -/
theorem c6_cache_write_through (w : World) (now : Nat) (g : String)
    (w1 : World)
    (h : updateFeatures w now g [(("tickets"), false)] = (w1, Except.ok ())) :
    isFeatureEnabled w1 now g ("tickets") = (w1, false)
    ∧ ((isFeatureEnabled w1 now g ("tickets")).1).dbReads = w1.dbReads := by
  rcases hge : getEnabledFeatures w now g with ⟨wa, current⟩
  unfold updateFeatures at h
  rw [hge] at h
  dsimp only at h
  rcases hdb : dbGetGuildSettings wa g with ⟨wb, r2⟩
  rw [hdb] at h
  rcases r2 with e | row
  · simp at h
  · dsimp only at h
    rcases hup : dbUpdateGuildSettings wb g
        (applyPatch current [(("tickets"), false)]) row.settings with ⟨wc, r3⟩
    rw [hup] at h
    rcases r3 with e | u
    · simp at h
    · dsimp only at h
      injection h with h1 h2
      subst h1
      rw [isFeatureEnabled_after_set, applyPatch_single_false]
      exact ⟨rfl, rfl⟩

/-- C6, witness: disabling tickets for `g1` at time 5 makes the immediate
re-read return false without touching the store. -/
theorem c6_witness :
    isFeatureEnabled c6World 5 ("g1") ("tickets") = (c6World, false)
    ∧ ((isFeatureEnabled c6World 5 ("g1") ("tickets")).1).dbReads
        = c6World.dbReads :=
  c6_cache_write_through sampleWorld 5 ("g1") c6World rfl

theorem find_deactivated (l : List AdminRecord) (u : String) :
    (l.map (fun a => if a.userId = u then { a with isActive := false } else a)).find?
      (fun a => u == a.userId && a.isActive) = none := by
  induction l with
  | nil => rfl
  | cons a rest ih =>
    by_cases hcase : a.userId = u
    · rw [List.map_cons, if_pos hcase, List.find?_cons_of_neg]
      · exact ih
      · simp
    · rw [List.map_cons, if_neg hcase, List.find?_cons_of_neg]
      · exact ih
      · simp
        exact fun hx => absurd hx.symm hcase

/-- C7. After a successful `removeGlobalAdmin(U)` (which soft-deletes every
record of `U` and clears `U`'s admin-cache entry), an immediately following
`isGlobalAdmin(U)` with a reachable store returns a negative answer with
level 0, whatever was cached before the revoke. -/
theorem c7_revoke_invalidation (w : World) (u : String) (now : Nat)
    (w1 : World)
    (hrm : dbRemoveGlobalAdmin w u = (w1, Except.ok ()))
    (hread : w1.faults.adminRead = false) :
    ∃ w2, dbIsGlobalAdmin w1 now u = (w2, Except.ok (false, 0)) := by
  unfold dbRemoveGlobalAdmin at hrm
  by_cases hw : w.faults.adminWrite = true
  · rw [hw] at hrm
    simp at hrm
  · simp only [Bool.not_eq_true] at hw
    rw [hw] at hrm
    simp only [Bool.false_eq_true, if_false] at hrm
    injection hrm with h1 h2
    subst h1
    dsimp only at hread
    unfold dbIsGlobalAdmin
    dsimp only
    rw [alookup_aerase_self]
    unfold dbIsGlobalAdminQuery
    dsimp only
    rw [hread]
    simp only [Bool.false_eq_true, if_false]
    rw [find_deactivated]
    exact ⟨_, rfl⟩

/-- C7, witness: `u9` has a positive cache entry in `sampleWorld`; after the
revoke, `isGlobalAdmin(u9)` reports not-admin with level 0. -/
theorem c7_witness :
    alookup sampleWorld.adminCache ("u9")
        = some { isAdmin := true, level := 3, timestamp := 0 }
    ∧ ∃ w2, dbIsGlobalAdmin revokedWorld 1 ("u9")
        = (w2, Except.ok (false, 0)) :=
  ⟨rfl, c7_revoke_invalidation sampleWorld ("u9") 1 revokedWorld rfl rfl⟩

/-- C3, counterexample. The claim says every successful `updateFeatures` is
followed by exactly one catalog resync, unconditionally. In the route the
resync call is guarded by `if (registerGuildCommandsFunction)`: before the
ready handler registers the hook, a feature write succeeds (the response is
`success`, with `commandsUpdated: false`) and no resync happens. -/
theorem c3_counterexample :
    (putGuildFeatures apiStateNoHook 0 ("g1") [(("tickets"), false)]).2
        = ApiResp.success false
    ∧ ((putGuildFeatures apiStateNoHook 0 ("g1") [(("tickets"), false)]).1).resyncCount
        = 0 := by
  exact ⟨rfl, rfl⟩

/-- C3, amended. A successful `updateFeatures` through the dashboard route
is followed by exactly one catalog-resync notification when the
register-guild-commands hook has been set, and by none when it is still
null; the response reports which case occurred in `commandsUpdated`. -/
theorem c3_amended_conditional_resync (s : ApiState) (now : Nat) (g : String)
    (patch : List (String × Bool))
    (hgid : (g == "") = false)
    (hvalid : patch.all (fun p => validFeatures.contains p.1) = true)
    (w1 : World)
    (hok : updateFeatures s.world now g patch = (w1, Except.ok ())) :
    ((putGuildFeatures s now g patch).1).resyncCount
        = s.resyncCount + (if s.hookSet then 1 else 0)
    ∧ (putGuildFeatures s now g patch).2 = ApiResp.success s.hookSet := by
  unfold putGuildFeatures
  rw [hgid]
  simp only [Bool.false_eq_true, if_false]
  rw [hvalid]
  simp only [Bool.not_true, Bool.false_eq_true, if_false]
  rw [hok]
  dsimp only
  cases hh : s.hookSet
  · rcases hge : getEnabledFeatures w1 now g with ⟨w3, feats⟩
    dsimp only
    exact ⟨by simp, rfl⟩
  · rcases hrg : registerGuildCommands w1 now g with ⟨w2, pub⟩
    rcases hge : getEnabledFeatures w2 now g with ⟨w3, feats⟩
    dsimp only
    exact ⟨by simp, rfl⟩

/-- C3, witness for the amended theorem: with the hook registered, the same
write is followed by exactly one resync and a `commandsUpdated: true`
response. -/
theorem c3_witness :
    ((putGuildFeatures apiStateHook 0 ("g1") [(("tickets"), false)]).1).resyncCount
        = apiStateHook.resyncCount + (if apiStateHook.hookSet then 1 else 0)
    ∧ (putGuildFeatures apiStateHook 0 ("g1") [(("tickets"), false)]).2
        = ApiResp.success apiStateHook.hookSet :=
  c3_amended_conditional_resync apiStateHook 0 ("g1") [(("tickets"), false)]
    rfl rfl ((updateFeatures sampleWorld 0 ("g1") [(("tickets"), false)]).1) rfl

end BotTrapper
